import Mathlib

/-!
Verification of the TextCollection progress/session/shuffle core.

The definitions below are a shallow embedding of the repository's route
handlers:

* `seededShuffle`, `generateSeed` and the level-scripts `GET` handler come
  from `src/app/api/check-session/route.ts` (second revision in the file);
* `recordCompletion` models the leveled `POST` handler and
  `resolveOrCreateUser` the `GET` handler of
  `src/app/api/upload-audio/route.ts` (third revision in the file).

JavaScript specifics are modelled explicitly: `||` defaulting on possibly
null columns (`jsOrNat`, `jsOrStr`), string truthiness (`strTruthy`),
truncated remainder (`jsRem`), 32-bit signed wrap-around (`toInt32`),
`trim`/`toLowerCase` on strings (`jsTrim`, `jsToLowerChar`, restricted to
the ASCII range they act on), and arrays that admit reads/writes at
arbitrary integer indices (`JsArray`, where `none` plays the role of
`undefined`). `Math.floor((random / 233280) * (i + 1))` is modelled as the
exact integer floor `pickIndex`; the floating-point evaluation agrees with
the exact one on the range facts used here (the result lies in `[0, i]`
for `random ∈ [0, 233280)`).

External collaborators are parameters: the prompt sheet is a function
`Nat → String` from 1-based row index to cell text (a blank cell is `""`),
and the relational store's rows are passed in and returned explicitly.
A row fetched with `.single()` that matches nothing makes the Supabase
client return the error code `PGRST116`, which the handlers `throw`;
this is modelled by the `serverError` outcome.
-/

/-- Whitespace test used by the model of JavaScript `trim` (space, tab,
line feed, vertical tab, form feed, carriage return — the ASCII
whitespace JavaScript strips). -/
def jsIsWs (c : Char) : Bool :=
  c.toNat = 32 || c.toNat = 9 || c.toNat = 10 || c.toNat = 11 || c.toNat = 12 || c.toNat = 13

/-- ASCII lower-casing of a single character, modelling `toLowerCase`
on the ASCII usernames this system handles. -/
def jsToLowerChar (c : Char) : Char :=
  if 65 ≤ c.toNat ∧ c.toNat ≤ 90 then Char.ofNat (c.toNat + 32) else c

/-- Model of JavaScript `String.prototype.trim`: drop leading and trailing
whitespace characters. -/
def jsTrim (l : List Char) : List Char :=
  ((l.dropWhile jsIsWs).reverse.dropWhile jsIsWs).reverse

/-- Username normalization from the upload-audio `GET` handler:
`usernameParam.trim().toLowerCase()`. -/
def normalizeUsername (s : String) : String :=
  String.mk ((jsTrim s.data).map jsToLowerChar)

/-- JavaScript `x || d` for a possibly-null numeric column: `null` and `0`
are falsy and give the default. -/
def jsOrNat (x : Option Nat) (d : Nat) : Nat :=
  match x with
  | some v => if v = 0 then d else v
  | none => d

/-- JavaScript truthiness of a possibly-absent string: absent/null and the
empty string are falsy. -/
def strTruthy (s : Option String) : Bool :=
  match s with
  | some t => t != ""
  | none => false

/-- JavaScript `x || fallback` on possibly-absent strings. -/
def jsOrStr (x fallback : Option String) : Option String :=
  if strTruthy x then x else fallback

/-- A row of the `users` table. Nullable columns are `Option`s; the
shuffled order may contain `none` entries because a JavaScript array can
hold `undefined`. -/
structure User where
  id : Nat
  username : String
  lastScriptId : Option Int
  currentLevel : Option Nat
  scriptsCompletedInLevel : Option Nat
  levelScriptOrder : Option (List (Option Nat))
  sessionId : Option String
  lastActivity : Nat
  version : Option Nat
deriving DecidableEq, Repr

/-- Wrap an integer to a signed 32-bit value, as JavaScript bitwise
operators do. -/
def toInt32 (n : Int) : Int :=
  let m := n % 4294967296
  if m < 2147483648 then m else m - 4294967296

/-- One step of the rolling hash in `generateSeed`:
`hash = ((hash << 5) - hash) + char; hash = hash & hash`. The shift wraps
at 32 bits, the subtraction and addition are exact, and `hash & hash`
wraps the result back to a signed 32-bit value. -/
def hashStep (h : Int) (c : Nat) : Int :=
  toInt32 (toInt32 (h * 32) - h + c)

/-- Seed derivation from `check-session/route.ts`: rolling hash of
`` `${username}_level_${level}` `` followed by `Math.abs`. Characters are
taken as code points, which agrees with `charCodeAt` on the basic
multilingual plane. -/
def generateSeed (username : String) (level : Nat) : Nat :=
  let str := username ++ "_level_" ++ toString level
  (str.data.foldl (fun h c => hashStep h c.toNat) 0).natAbs

/-- JavaScript `%` (truncated remainder, sign of the dividend) for a
positive modulus. -/
def jsRem (a b : Int) : Int :=
  if 0 ≤ a then a % b else -((-a) % b)

/-- The linear congruential step of `seededShuffle`:
`random = (random * 9301 + 49297) % 233280`. -/
def lcgNext (r : Int) : Int :=
  jsRem (r * 9301 + 49297) 233280

/-- Swap-partner choice of `seededShuffle`:
`Math.floor((random / 233280) * (i + 1))`, as an exact integer floor. -/
def pickIndex (r : Int) (i : Nat) : Int :=
  Int.fdiv (r * ((i : Int) + 1)) 233280

/-- A JavaScript array under integer-keyed reads and writes: `elts` are
the proper elements (`none` = `undefined`), `props` the non-element
integer properties created by writes at negative indices. -/
structure JsArray (T : Type) where
  elts : List (Option T)
  props : List (Int × Option T)
deriving DecidableEq, Repr

/-- Read `a[j]`: an element when `0 ≤ j < length`, otherwise the most
recently written property at `j`, otherwise `undefined`. -/
def JsArray.read {T : Type} (a : JsArray T) (j : Int) : Option T :=
  if h : 0 ≤ j ∧ j.toNat < a.elts.length then a.elts.get ⟨j.toNat, h.2⟩
  else (a.props.find? (fun p => p.1 == j)).elim none Prod.snd

/-- Write `a[j] = v`: an element update when `0 ≤ j < length`, otherwise a
property write. (A write at `j ≥ length` would grow a JavaScript array,
but `seededShuffle` only writes at indices `≤ i < length`.) -/
def JsArray.write {T : Type} (a : JsArray T) (j : Int) (v : Option T) : JsArray T :=
  if 0 ≤ j ∧ j.toNat < a.elts.length then { a with elts := a.elts.set j.toNat v }
  else { a with props := (j, v) :: a.props }

/-- One iteration of the Fisher–Yates loop in `seededShuffle`: advance the
generator, pick `j`, and perform the destructuring swap
`[shuffled[i], shuffled[j]] = [shuffled[j], shuffled[i]]` (both reads
happen before both writes; `shuffled[i]` is assigned first). -/
def shuffleStep {T : Type} (st : JsArray T × Int) (i : Nat) : JsArray T × Int :=
  let r := lcgNext st.2
  let j := pickIndex r i
  let vi := st.1.read (i : Int)
  let vj := st.1.read j
  ((st.1.write (i : Int) vj).write j vi, r)

/-- `seededShuffle` from `check-session/route.ts`: copy the input, then
run the loop for `i = length - 1` down to `1`. The returned value is the
element list of the resulting array. -/
def seededShuffle {T : Type} (array : List T) (seed : Int) : List (Option T) :=
  let idxs := (List.range' 1 (array.length - 1)).reverse
  (idxs.foldl shuffleStep (⟨array.map some, []⟩, seed)).1.elts

/-- Body of the leveled progress-update `POST` request. `none` models an
absent field. -/
structure RcReq where
  originalRowIndex : Option Int
  sessionId : Option String
deriving DecidableEq, Repr

/-- Outcomes of the leveled progress-update `POST` handler. -/
inductive RcResult where
  | badRequest
  | sessionInvalidated (currentSessionId : Option String)
  | serverError
  | conflictResult (userId : Nat) (currentLevel : Option Nat) (scriptsCompletedInLevel : Option Nat)
  | ok (userId : Nat) (currentLevel : Nat) (scriptsCompletedInLevel : Nat) (levelComplete : Bool)
      (version : Nat)
deriving DecidableEq, Repr

/-- The guard `sessionId && currentUser.session_id !== sessionId`. -/
def sessionCheckFails (storedSessionId submitted : Option String) : Bool :=
  strTruthy submitted && storedSessionId != submitted

/-- The leveled progress-update `POST` handler of
`src/app/api/upload-audio/route.ts`. `currentUser` is the row as read at
the start of the call, `dbUser` the state of the same row at the moment
the conditional update executes (they differ exactly when a concurrent
writer intervened), and `latest` the row at the re-read performed by the
race-detection branch. Returns the row state after the call together with
the response. The conditional update carries
`.eq('scripts_completed_in_level', scriptsCompletedInLevel)`; when it
matches no row, `.select().single()` produces the `PGRST116` error, which
the handler throws (`serverError`). -/
def recordCompletion (currentUser dbUser latest : User) (req : RcReq) (now : Nat) :
    User × RcResult :=
  match req.originalRowIndex with
  | none => (dbUser, RcResult.badRequest)
  | some rowIx =>
    if sessionCheckFails currentUser.sessionId req.sessionId then
      (dbUser, RcResult.sessionInvalidated currentUser.sessionId)
    else
      let scriptsCompletedInLevel := jsOrNat currentUser.scriptsCompletedInLevel 0
      let newScriptsCompleted := scriptsCompletedInLevel + 1
      let scriptsPerLevel :=
        match currentUser.levelScriptOrder with
        | some ord => if 0 < ord.length then ord.length else 50
        | none => 50
      let levelComplete := decide (scriptsPerLevel ≤ newScriptsCompleted)
      let nextLevel :=
        if levelComplete then jsOrNat currentUser.currentLevel 1 + 1
        else jsOrNat currentUser.currentLevel 1
      let nextScriptsCompleted := if levelComplete then 0 else newScriptsCompleted
      if dbUser.scriptsCompletedInLevel == some scriptsCompletedInLevel then
        let updated : User :=
          { dbUser with
            lastScriptId := some rowIx
            currentLevel := some nextLevel
            scriptsCompletedInLevel := some nextScriptsCompleted
            levelScriptOrder := if levelComplete then none else currentUser.levelScriptOrder
            sessionId := jsOrStr req.sessionId currentUser.sessionId
            lastActivity := now
            version := some (jsOrNat currentUser.version 0 + 1) }
        if updated.scriptsCompletedInLevel != some nextScriptsCompleted then
          (updated,
           RcResult.conflictResult latest.id latest.currentLevel latest.scriptsCompletedInLevel)
        else
          (updated,
           RcResult.ok updated.id nextLevel nextScriptsCompleted levelComplete
             (jsOrNat currentUser.version 0 + 1))
      else
        (dbUser, RcResult.serverError)

/-- The configured page size (`scriptsPerLevel = 50` in the level-scripts
`GET` handler). -/
def scriptsPerLevelConst : Nat := 50

/-- Outcomes of the level-scripts `GET` handler. -/
inductive GnpResult where
  | noScripts
  | noValidScripts
  | levelDone
  | noMoreScripts
  | textMissing
  | prompt (level : Nat) (scriptText : String) (originalRowIndex : Nat) (scriptIndexInLevel : Nat)
      (totalScriptsInLevel : Nat) (scriptsRemainingInLevel : Nat) (levelComplete : Bool)
deriving DecidableEq, Repr

/-- `startScriptRow = (level - 1) * scriptsPerLevel + 1`. -/
def levelStartRow (level : Nat) : Nat :=
  (level - 1) * scriptsPerLevelConst + 1

/-- The cells fetched for a level: rows `startScriptRow .. endScriptRow`
of column A, as `row[0] || ''` strings. -/
def levelValues (level : Nat) (sheet : Nat → String) : List String :=
  (List.range scriptsPerLevelConst).map (fun i => sheet (levelStartRow level + i))

/-- The non-blank scripts of a level with their original row indices:
`values.map((row, index) => ...)` followed by the
`script.text.trim() !== ''` filter. -/
def levelScripts (level : Nat) (sheet : Nat → String) : List (Nat × String) :=
  ((levelValues level sheet).enum.map (fun p => (levelStartRow level + p.1, p.2))).filter
    (fun p => jsTrim p.2.data != [])

/-- Tail of the level-scripts `GET` handler: resolve the prompt at
position `scriptsCompleted` of the (stored or freshly computed) shuffled
order and fetch its text. `scriptOrder[currentScriptIndex]` that is
`undefined` or `0` is falsy and yields the "no more scripts" response. -/
def servePrompt (scriptsCompleted level : Nat) (scriptOrder : List (Option Nat))
    (sheet : Nat → String) : GnpResult :=
  if scriptOrder.length ≤ scriptsCompleted then GnpResult.levelDone
  else
    match scriptOrder.getD scriptsCompleted none with
    | none => GnpResult.noMoreScripts
    | some rowIx =>
      if rowIx = 0 then GnpResult.noMoreScripts
      else
        let text := sheet rowIx
        if text = "" then GnpResult.textMissing
        else
          GnpResult.prompt level text rowIx scriptsCompleted scriptOrder.length
            (scriptOrder.length - scriptsCompleted - 1)
            (decide (scriptOrder.length - scriptsCompleted - 1 = 0))

/-- The level-scripts `GET` handler of `src/app/api/check-session/route.ts`
(second revision): reuse the stored order when present for the requested
level, otherwise fetch the range, filter blanks, shuffle with the
user-specific seed and persist order and level onto the user row. Returns
the row state after the call and the response. -/
def getNextPrompt (user : User) (level : Nat) (sheet : Nat → String) : User × GnpResult :=
  let stored : Option (List (Option Nat)) :=
    match user.levelScriptOrder with
    | some ord => if user.currentLevel == some level then some ord else none
    | none => none
  match stored with
  | some ord => (user, servePrompt (jsOrNat user.scriptsCompletedInLevel 0) level ord sheet)
  | none =>
    if (levelValues level sheet).length = 0 then (user, GnpResult.noScripts)
    else
      let scripts := levelScripts level sheet
      if scripts.length = 0 then (user, GnpResult.noValidScripts)
      else
        let originalIndices := scripts.map Prod.fst
        let seed := generateSeed user.username level
        let scriptOrder := seededShuffle originalIndices (seed : Int)
        let updatedUser :=
          { user with levelScriptOrder := some scriptOrder, currentLevel := some level }
        (updatedUser, servePrompt (jsOrNat user.scriptsCompletedInLevel 0) level scriptOrder sheet)

/-- Successful response body of the resolve-or-create `GET` handler. -/
structure RocResult where
  userId : Nat
  username : String
  currentLevel : Nat
  scriptsCompletedInLevel : Nat
  isNewUser : Bool
deriving DecidableEq, Repr

/-- Outcome of the resolve-or-create `GET` handler: the 400 response of
the `if (!usernameParam)` guard, or the success body. -/
inductive RocOutcome where
  | badRequest
  | ok (result : RocResult)
deriving DecidableEq, Repr

/-- Lookup `.eq('username', username).single()` over the users table. -/
def findByUsername (db : List User) (uname : String) : Option User :=
  db.find? (fun u => u.username == uname)

/-- The resolve-or-create `GET` handler of
`src/app/api/upload-audio/route.ts` (leveled revision). An absent or
empty `username` query parameter is falsy and is rejected with 400
(`if (!usernameParam) return ...`) before anything is read or written.
Otherwise: normalize the username, activate the supplied session on an
existing user (last-writer-wins) or insert a fresh user at level 1.
`newId` is the row id the store would assign to an insert. -/
def resolveOrCreateUser (db : List User) (usernameParam : Option String) (sessionId : String)
    (newId now : Nat) : List User × RocOutcome :=
  match usernameParam with
  | none => (db, RocOutcome.badRequest)
  | some raw =>
    if raw = "" then (db, RocOutcome.badRequest)
    else
      let username := normalizeUsername raw
      match findByUsername db username with
      | some u =>
        let u' := { u with sessionId := some sessionId, lastActivity := now }
        (db.map (fun w => if w.id = u.id then u' else w),
         RocOutcome.ok
           { userId := u.id, username := u.username,
             currentLevel := jsOrNat u.currentLevel 1,
             scriptsCompletedInLevel := jsOrNat u.scriptsCompletedInLevel 0,
             isNewUser := false })
      | none =>
        let nu : User :=
          { id := newId, username := username, lastScriptId := some 0, currentLevel := some 1,
            scriptsCompletedInLevel := some 0, levelScriptOrder := none,
            sessionId := some sessionId, lastActivity := now, version := some 0 }
        (db ++ [nu],
         RocOutcome.ok
           { userId := newId, username := username, currentLevel := 1,
             scriptsCompletedInLevel := 0, isNewUser := true })

/-- Predicate on the claim's own vocabulary: a string made of whitespace
only. -/
def wsOnly (l : List Char) : Prop := ∀ c ∈ l, jsIsWs c = true

/-- Two character lists that agree once letter case is discarded. -/
def eqUpToCase (l1 l2 : List Char) : Prop := l1.map jsToLowerChar = l2.map jsToLowerChar

/-- Two raw username strings that differ only in letter case and/or
leading-or-trailing whitespace. -/
def caseWsVariant (a b : String) : Prop :=
  ∃ w1 w2 w3 w4 c1 c2, wsOnly w1 ∧ wsOnly w2 ∧ wsOnly w3 ∧ wsOnly w4 ∧
    eqUpToCase c1 c2 ∧ a.data = w1 ++ c1 ++ w2 ∧ b.data = w3 ++ c2 ++ w4

/-- The original row indices of the non-blank scripts of a level, in
sheet order (what the handler shuffles). -/
def nonBlankIndices (level : Nat) (sheet : Nat → String) : List Nat :=
  (levelScripts level sheet).map Prod.fst

/-- A populated user row as read at the start of a progress update. -/
def c3CurrentUser : User :=
  { id := 7, username := "alice", lastScriptId := some 3, currentLevel := some 1,
    scriptsCompletedInLevel := some 0, levelScriptOrder := some [some 2, some 1, some 3],
    sessionId := some "sess1", lastActivity := 0, version := some 4 }

/-- The same row after a concurrent completion advanced it: the
conditional update of a caller that still holds the older
`scriptsCompletedInLevel = 0` matches no row against it. -/
def c3DbUser : User :=
  { c3CurrentUser with
    scriptsCompletedInLevel := some 1
    lastScriptId := some 2
    version := some 5 }

/-- A user row holding a stored shuffled order for its current level. -/
def c6User : User :=
  { id := 2, username := "bob", lastScriptId := none, currentLevel := some 2,
    scriptsCompletedInLevel := some 0, levelScriptOrder := some [some 51, some 52],
    sessionId := some "s", lastActivity := 0, version := some 3 }

/-- A fresh user row with no stored order. -/
def c7User : User :=
  { id := 1, username := "alice", lastScriptId := none, currentLevel := none,
    scriptsCompletedInLevel := some 0, levelScriptOrder := none,
    sessionId := some "s", lastActivity := 0, version := some 0 }

/-- A sheet whose level-1 range has exactly one non-blank row (row 1). -/
def c7Sheet : Nat → String := fun n => if n = 1 then "a" else ""

lemma jsOrNat_some_zero (k : Nat) : jsOrNat (some k) 0 = k := by
  cases k <;> simp [jsOrNat]

lemma jsOrNat_some_one (L : Nat) (h : 0 < L) : jsOrNat (some L) 1 = L := by
  cases L with
  | zero => omega
  | succ n => simp [jsOrNat]

lemma dropWhile_ws_append (w t : List Char) (hw : wsOnly w) :
    (w ++ t).dropWhile jsIsWs = t.dropWhile jsIsWs := by
  induction w with
  | nil => simp
  | cons c cs ih =>
    have hc : jsIsWs c = true := hw c (by simp)
    have hcs : wsOnly cs := fun x hx => hw x (by simp [hx])
    simp [List.dropWhile_cons, hc, ih hcs]

lemma dropWhile_append_of_ne_nil (t w : List Char) (h : t.dropWhile jsIsWs ≠ []) :
    (t ++ w).dropWhile jsIsWs = t.dropWhile jsIsWs ++ w := by
  induction t with
  | nil => simp at h
  | cons c cs ih =>
    by_cases hc : jsIsWs c = true
    · simp only [List.dropWhile_cons, hc, if_true] at h ⊢
      simpa [hc] using ih h
    · simp [List.dropWhile_cons, hc]

lemma dropWhile_eq_nil_of_wsOnly (w : List Char) (hw : wsOnly w) :
    w.dropWhile jsIsWs = [] :=
  List.dropWhile_eq_nil_iff.mpr hw

lemma wsOnly_of_dropWhile_eq_nil (w : List Char) (h : w.dropWhile jsIsWs = []) :
    wsOnly w :=
  List.dropWhile_eq_nil_iff.mp h

lemma wsOnly_reverse (w : List Char) (hw : wsOnly w) : wsOnly w.reverse :=
  fun c hc => hw c (List.mem_reverse.mp hc)

lemma jsTrim_padding (w1 c w2 : List Char) (h1 : wsOnly w1) (h2 : wsOnly w2) :
    jsTrim (w1 ++ c ++ w2) = jsTrim c := by
  unfold jsTrim
  rw [List.append_assoc, dropWhile_ws_append w1 (c ++ w2) h1]
  by_cases hc : c.dropWhile jsIsWs = []
  · have hcw : wsOnly c := wsOnly_of_dropWhile_eq_nil c hc
    have : (c ++ w2).dropWhile jsIsWs = [] := by
      rw [dropWhile_ws_append c w2 hcw]
      exact dropWhile_eq_nil_of_wsOnly w2 h2
    rw [this, hc]
  · rw [dropWhile_append_of_ne_nil c w2 hc, List.reverse_append,
      dropWhile_ws_append w2.reverse (c.dropWhile jsIsWs).reverse (wsOnly_reverse w2 h2)]

lemma char_toNat_ofNat_lt (n : Nat) (h : n < 55296) : (Char.ofNat n).toNat = n := by
  unfold Char.ofNat
  split
  · rfl
  · rename_i hn
    exact absurd (Or.inl h) hn

lemma jsIsWs_toLower (c : Char) : jsIsWs (jsToLowerChar c) = jsIsWs c := by
  unfold jsToLowerChar
  split
  · rename_i h
    have h32 : (Char.ofNat (c.toNat + 32)).toNat = c.toNat + 32 :=
      char_toNat_ofNat_lt (c.toNat + 32) (by omega)
    have hl : jsIsWs (Char.ofNat (c.toNat + 32)) = false := by
      simp only [jsIsWs, h32, Bool.or_eq_false_iff, decide_eq_false_iff_not]
      omega
    have hr : jsIsWs c = false := by
      simp only [jsIsWs, Bool.or_eq_false_iff, decide_eq_false_iff_not]
      omega
    rw [hl, hr]
  · rfl

lemma dropWhile_map_toLower (l : List Char) :
    (l.map jsToLowerChar).dropWhile jsIsWs = (l.dropWhile jsIsWs).map jsToLowerChar := by
  induction l with
  | nil => simp
  | cons c cs ih =>
    by_cases hc : jsIsWs c = true
    · simp [List.dropWhile_cons, jsIsWs_toLower, hc, ih]
    · simp [List.dropWhile_cons, jsIsWs_toLower, hc]

lemma jsTrim_map_toLower (l : List Char) :
    jsTrim (l.map jsToLowerChar) = (jsTrim l).map jsToLowerChar := by
  unfold jsTrim
  rw [dropWhile_map_toLower, ← List.map_reverse, dropWhile_map_toLower, ← List.map_reverse]

lemma normalizeUsername_eq_of_variant (a b : String) (h : caseWsVariant a b) :
    normalizeUsername a = normalizeUsername b := by
  obtain ⟨w1, w2, w3, w4, c1, c2, h1, h2, h3, h4, hcase, ha, hb⟩ := h
  apply String.ext
  show ((jsTrim a.data).map jsToLowerChar) = ((jsTrim b.data).map jsToLowerChar)
  rw [ha, hb, jsTrim_padding w1 c1 w2 h1 h2, jsTrim_padding w3 c2 w4 h3 h4,
    ← jsTrim_map_toLower, ← jsTrim_map_toLower, hcase]

lemma get_cons_set_perm {α : Type} (xs : List α) (k : Nat) (hk : k < xs.length) (x : α) :
    (xs.get ⟨k, hk⟩ :: xs.set k x).Perm (x :: xs) := by
  induction xs generalizing k with
  | nil => simp at hk
  | cons y ys ih =>
    cases k with
    | zero =>
      simp only [List.get, List.set]
      exact List.Perm.swap x y ys
    | succ k =>
      simp only [List.get, List.set]
      have hk' : k < ys.length := by simpa using hk
      have t1 : (ys.get ⟨k, hk'⟩ :: y :: ys.set k x).Perm (y :: ys.get ⟨k, hk'⟩ :: ys.set k x) :=
        List.Perm.swap y (ys.get ⟨k, hk'⟩) (ys.set k x)
      have t2 : (y :: ys.get ⟨k, hk'⟩ :: ys.set k x).Perm (y :: x :: ys) := (ih k hk').cons y
      have t3 : (y :: x :: ys).Perm (x :: y :: ys) := List.Perm.swap x y ys
      exact t1.trans (t2.trans t3)

lemma set_set_get_perm {α : Type} (l : List α) (i j : Nat) (hi : i < l.length)
    (hj : j < l.length) :
    ((l.set i (l.get ⟨j, hj⟩)).set j (l.get ⟨i, hi⟩)).Perm l := by
  induction l generalizing i j with
  | nil => simp at hi
  | cons x xs ih =>
    cases i with
    | zero =>
      cases j with
      | zero => simp
      | succ j =>
        have hj' : j < xs.length := by simpa using hj
        simp only [List.get, List.set]
        exact get_cons_set_perm xs j hj' x
    | succ i =>
      cases j with
      | zero =>
        have hi' : i < xs.length := by simpa using hi
        simp only [List.get, List.set]
        exact get_cons_set_perm xs i hi' x
      | succ j =>
        have hi' : i < xs.length := by simpa using hi
        have hj' : j < xs.length := by simpa using hj
        simp only [List.get, List.set]
        exact List.Perm.cons x (ih i j hi' hj')

lemma lcgNext_bounds (r : Int) (hr : 0 ≤ r) : 0 ≤ lcgNext r ∧ lcgNext r < 233280 := by
  have ha : (0 : Int) ≤ r * 9301 + 49297 := by positivity
  unfold lcgNext jsRem
  rw [if_pos ha]
  exact ⟨Int.emod_nonneg _ (by norm_num), Int.emod_lt_of_pos _ (by norm_num)⟩

lemma pickIndex_bounds (r : Int) (i : Nat) (h0 : 0 ≤ r) (h1 : r < 233280) :
    0 ≤ pickIndex r i ∧ pickIndex r i ≤ (i : Int) := by
  unfold pickIndex
  rw [Int.fdiv_eq_ediv _ (by norm_num)]
  constructor
  · exact Int.ediv_nonneg (by positivity) (by norm_num)
  · have hlt : r * ((i : Int) + 1) < ((i : Int) + 1) * 233280 := by
      have hpos : (0 : Int) < (i : Int) + 1 := by positivity
      calc r * ((i : Int) + 1) < 233280 * ((i : Int) + 1) :=
            mul_lt_mul_of_pos_right h1 hpos
        _ = ((i : Int) + 1) * 233280 := mul_comm _ _
    have := (Int.ediv_lt_iff_lt_mul (b := (i : Int) + 1) (by norm_num : (0:Int) < 233280)).mpr hlt
    omega

lemma JsArray.read_inRange {T : Type} (a : JsArray T) (j : Int) (h0 : 0 ≤ j)
    (h1 : j.toNat < a.elts.length) :
    a.read j = a.elts.get ⟨j.toNat, h1⟩ := by
  unfold JsArray.read
  rw [dif_pos ⟨h0, h1⟩]

lemma JsArray.write_inRange {T : Type} (a : JsArray T) (j : Int) (v : Option T) (h0 : 0 ≤ j)
    (h1 : j.toNat < a.elts.length) :
    a.write j v = { a with elts := a.elts.set j.toNat v } := by
  unfold JsArray.write
  rw [if_pos ⟨h0, h1⟩]

lemma shuffleStep_inv {T : Type} (l : List T) (st : JsArray T × Int) (i : Nat)
    (hperm : st.1.elts.Perm (l.map some)) (hr : 0 ≤ st.2) (hi : i < l.length) :
    (shuffleStep st i).1.elts.Perm (l.map some) ∧ 0 ≤ (shuffleStep st i).2 := by
  have hlen : st.1.elts.length = l.length := by
    rw [hperm.length_eq, List.length_map]
  obtain ⟨hr0, hr1⟩ := lcgNext_bounds st.2 hr
  obtain ⟨hj0, hj1⟩ := pickIndex_bounds (lcgNext st.2) i hr0 hr1
  set j := pickIndex (lcgNext st.2) i with hjdef
  have hiN : ((i : Int)).toNat = i := Int.toNat_natCast i
  have hiL : ((i : Int)).toNat < st.1.elts.length := by rw [hiN, hlen]; exact hi
  have hjL : j.toNat < st.1.elts.length := by
    have : j.toNat ≤ i := by omega
    omega
  unfold shuffleStep
  dsimp only
  rw [← hjdef]
  rw [JsArray.read_inRange st.1 (i : Int) (by positivity) hiL,
    JsArray.read_inRange st.1 j hj0 hjL,
    JsArray.write_inRange st.1 (i : Int) _ (by positivity) hiL]
  have hjL2 : j.toNat < (st.1.elts.set ((i : Int)).toNat (st.1.elts.get ⟨j.toNat, hjL⟩)).length := by
    rw [List.length_set]; exact hjL
  rw [JsArray.write_inRange _ j _ hj0 hjL2]
  refine ⟨?_, hr0⟩
  have hswap :
      ((st.1.elts.set ((i : Int)).toNat (st.1.elts.get ⟨j.toNat, hjL⟩)).set j.toNat
        (st.1.elts.get ⟨((i : Int)).toNat, hiL⟩)).Perm st.1.elts :=
    set_set_get_perm st.1.elts ((i : Int)).toNat j.toNat hiL hjL
  exact hswap.trans hperm

lemma foldl_shuffleStep_inv {T : Type} (l : List T) (idxs : List Nat) (st : JsArray T × Int)
    (hmem : ∀ i ∈ idxs, i < l.length) (hperm : st.1.elts.Perm (l.map some)) (hr : 0 ≤ st.2) :
    (idxs.foldl shuffleStep st).1.elts.Perm (l.map some) ∧ 0 ≤ (idxs.foldl shuffleStep st).2 := by
  induction idxs generalizing st with
  | nil => exact ⟨hperm, hr⟩
  | cons i is ih =>
    have hi : i < l.length := hmem i (by simp)
    obtain ⟨h1, h2⟩ := shuffleStep_inv l st i hperm hr hi
    exact ih (shuffleStep st i) (fun x hx => hmem x (by simp [hx])) h1 h2

lemma seededShuffle_perm {T : Type} (items : List T) (seed : Int) (hseed : 0 ≤ seed) :
    (seededShuffle items seed).Perm (items.map some) := by
  unfold seededShuffle
  dsimp only
  have hmem : ∀ i ∈ (List.range' 1 (items.length - 1)).reverse, i < items.length := by
    intro i hi
    rw [List.mem_reverse, List.mem_range'] at hi
    omega
  exact (foldl_shuffleStep_inv items _ (⟨items.map some, []⟩, seed) hmem (List.Perm.refl _)
    hseed).1

lemma enumFrom_map_range' {α : Type} (f : Nat → α) :
    ∀ (k s j b : Nat), b + j = s →
      (((List.range' s k).map f).enumFrom j).map (fun p => (b + p.1, p.2)) =
        (List.range' s k).map (fun n => (n, f n)) := by
  intro k
  induction k with
  | zero => intro s j b hb; simp
  | succ k ih =>
    intro s j b hb
    rw [List.range'_succ]
    simp only [List.map_cons, List.enumFrom_cons]
    rw [ih (s + 1) (j + 1) b (by omega)]
    simp [hb]

lemma levelScripts_eq (level : Nat) (sheet : Nat → String) :
    levelScripts level sheet =
      ((List.range' (levelStartRow level) scriptsPerLevelConst).map (fun n => (n, sheet n))).filter
        (fun p => jsTrim p.2.data != []) := by
  have hv : (List.range scriptsPerLevelConst).map (fun i => sheet (levelStartRow level + i)) =
      (List.range' (levelStartRow level) scriptsPerLevelConst).map sheet := by
    rw [List.range'_eq_map_range, List.map_map]
    rfl
  unfold levelScripts levelValues
  rw [hv]
  simp only [List.enum]
  rw [enumFrom_map_range' sheet scriptsPerLevelConst (levelStartRow level) 0 (levelStartRow level)
    (by omega)]

lemma nonBlankIndices_eq (level : Nat) (sheet : Nat → String) :
    nonBlankIndices level sheet =
      (List.range' (levelStartRow level) scriptsPerLevelConst).filter
        (fun n => jsTrim (sheet n).data != []) := by
  unfold nonBlankIndices
  rw [levelScripts_eq, List.filter_map, List.map_map]
  have h1 : (Prod.fst ∘ fun n => (n, sheet n)) = (id : Nat → Nat) := rfl
  have h2 : ((fun p : Nat × String => jsTrim p.2.data != []) ∘ fun n => (n, sheet n)) =
      fun n => jsTrim (sheet n).data != [] := rfl
  rw [h1, h2, List.map_id]

/-- C1: a `recordCompletion` request whose submitted `sessionId` is
non-empty and differs from the stored one is rejected with the
`SessionInvalidated` conflict signal, and the user row is returned
unchanged — no field is mutated. -/
theorem recordCompletion_staleSession_rejected
    (u latest : User) (s : String) (rowIx : Int) (now : Nat)
    (hs : s ≠ "") (hne : u.sessionId ≠ some s) :
    recordCompletion u u latest ⟨some rowIx, some s⟩ now =
      (u, RcResult.sessionInvalidated u.sessionId) := by
  unfold recordCompletion
  simp [sessionCheckFails, strTruthy, bne_iff_ne, hs, hne]

/-- C1 witness. -/
theorem recordCompletion_staleSession_rejected_witness :
    ("sess2" ≠ "") ∧ (c3CurrentUser.sessionId ≠ some "sess2") ∧
    recordCompletion c3CurrentUser c3CurrentUser c3CurrentUser ⟨some 1, some "sess2"⟩ 5 =
      (c3CurrentUser, RcResult.sessionInvalidated c3CurrentUser.sessionId) :=
  ⟨by decide, by decide,
   recordCompletion_staleSession_rejected c3CurrentUser c3CurrentUser "sess2" 1 5
     (by decide) (by decide)⟩

/-- C2: for an accepted completion, with `scriptsPerLevel` the length of
a non-empty stored order and 50 otherwise: if `k + 1 ≥ scriptsPerLevel`
the post-state is `(L + 1, 0, cleared order)` with `levelComplete = true`,
otherwise `(L, k + 1, unchanged order)` with `levelComplete = false`. -/
theorem recordCompletion_levelTransition
    (u latest : User) (rowIx : Int) (sid : Option String) (now L k : Nat)
    (hL : u.currentLevel = some L) (hL1 : 0 < L)
    (hk : u.scriptsCompletedInLevel = some k)
    (hsess : sessionCheckFails u.sessionId sid = false) :
    let spl := match u.levelScriptOrder with
      | some ord => if 0 < ord.length then ord.length else 50
      | none => 50
    let post := (recordCompletion u u latest ⟨some rowIx, sid⟩ now).1
    let res := (recordCompletion u u latest ⟨some rowIx, sid⟩ now).2
    (spl ≤ k + 1 →
       post.currentLevel = some (L + 1) ∧ post.scriptsCompletedInLevel = some 0 ∧
       post.levelScriptOrder = none ∧
       res = RcResult.ok u.id (L + 1) 0 true (jsOrNat u.version 0 + 1)) ∧
    (k + 1 < spl →
       post.currentLevel = some L ∧ post.scriptsCompletedInLevel = some (k + 1) ∧
       post.levelScriptOrder = u.levelScriptOrder ∧
       res = RcResult.ok u.id L (k + 1) false (jsOrNat u.version 0 + 1)) := by
  intro spl post res
  unfold post res
  unfold recordCompletion
  simp only [hsess, Bool.false_eq_true, if_false, hk, jsOrNat_some_zero, hL,
    jsOrNat_some_one L hL1, beq_self_eq_true, if_true]
  constructor
  · intro hcomp
    have hdec : decide (spl ≤ k + 1) = true := decide_eq_true hcomp
    simp only [spl] at hdec
    simp [hdec]
  · intro hcomp
    have hdec : decide (spl ≤ k + 1) = false := by
      simp only [decide_eq_false_iff_not]
      omega
    simp only [spl] at hdec
    simp [hdec]

/-- C2 witness. -/
theorem recordCompletion_levelTransition_witness :
    (0 : Nat) < 1 ∧ sessionCheckFails c3CurrentUser.sessionId (some "sess1") = false ∧
    ((recordCompletion c3CurrentUser c3CurrentUser c3CurrentUser ⟨some 9, some "sess1"⟩ 5).1.currentLevel = some 1 ∧
     (recordCompletion c3CurrentUser c3CurrentUser c3CurrentUser ⟨some 9, some "sess1"⟩ 5).1.scriptsCompletedInLevel = some 1 ∧
     (recordCompletion c3CurrentUser c3CurrentUser c3CurrentUser ⟨some 9, some "sess1"⟩ 5).1.levelScriptOrder = c3CurrentUser.levelScriptOrder ∧
     (recordCompletion c3CurrentUser c3CurrentUser c3CurrentUser ⟨some 9, some "sess1"⟩ 5).2 =
       RcResult.ok c3CurrentUser.id 1 1 false (jsOrNat c3CurrentUser.version 0 + 1)) :=
  ⟨by decide, by decide,
   (recordCompletion_levelTransition c3CurrentUser c3CurrentUser 9 (some "sess1") 5 1 0 rfl
       (by decide) rfl (by decide)).2 (by decide)⟩

/-- C3 (code evaluated at the failing input): when a concurrent
completion has advanced `scriptsCompletedInLevel` between the read and
the conditional update, the update matches no row, `.single()` yields
`PGRST116`, and the handler throws — the call ends in the generic 500
error, not in the documented non-fatal `conflict = true` re-read. -/
theorem recordCompletion_lostRace_throws :
    recordCompletion c3CurrentUser c3DbUser c3DbUser ⟨some 1, some "sess1"⟩ 5 =
      (c3DbUser, RcResult.serverError) := by decide

/-- C4: an accepted progress mutation sets `version` to exactly the read
value plus one. -/
theorem recordCompletion_version_plus_one
    (u latest : User) (rowIx : Int) (sid : Option String) (now v k : Nat)
    (hv : u.version = some v) (hk : u.scriptsCompletedInLevel = some k)
    (hsess : sessionCheckFails u.sessionId sid = false) :
    (recordCompletion u u latest ⟨some rowIx, sid⟩ now).1.version = some (v + 1) := by
  unfold recordCompletion
  simp only [hsess, Bool.false_eq_true, if_false, hk, jsOrNat_some_zero, hv,
    jsOrNat_some_zero v, beq_self_eq_true, if_true]
  split <;> simp [jsOrNat_some_zero]

/-- C4 witness. -/
theorem recordCompletion_version_plus_one_witness :
    c3CurrentUser.version = some 4 ∧ c3CurrentUser.scriptsCompletedInLevel = some 0 ∧
    sessionCheckFails c3CurrentUser.sessionId (some "sess1") = false ∧
    (recordCompletion c3CurrentUser c3CurrentUser c3CurrentUser ⟨some 9, some "sess1"⟩ 5).1.version = some (4 + 1) :=
  ⟨rfl, rfl, by decide,
   recordCompletion_version_plus_one c3CurrentUser c3CurrentUser 9 (some "sess1") 5 4 0 rfl rfl
     (by decide)⟩

/-- C5 (amended): for every non-negative seed the shuffle output is a
permutation of the input (lifted to array cells by `some`) of the same
length. Determinism over identical arguments is immediate because the
embedding is a pure function. For negative seeds the permutation claim
fails (see the counterexample). -/
theorem seededShuffle_perm_of_nonneg_seed {T : Type} (items : List T) (seed : Int)
    (hseed : 0 ≤ seed) :
    (seededShuffle items seed).Perm (items.map some) ∧
    (seededShuffle items seed).length = items.length := by
  have h := seededShuffle_perm items seed hseed
  exact ⟨h, by rw [h.length_eq, List.length_map]⟩

/-- C5 witness. -/
theorem seededShuffle_perm_witness :
    ((0 : Int) ≤ 12345) ∧
    ((seededShuffle [1, 2, 3, 4, 5] (12345 : Int)).Perm ([1, 2, 3, 4, 5].map some) ∧
     (seededShuffle [(1 : Nat), 2, 3, 4, 5] (12345 : Int)).length = [1, 2, 3, 4, 5].length) :=
  ⟨by decide, seededShuffle_perm_of_nonneg_seed [(1 : Nat), 2, 3, 4, 5] 12345 (by decide)⟩

/-- C5 counterexample: at seed `-6` the generator stays negative, the
swap partner index is `-1`, and the swap stores `undefined` into the
array: the output of `seededShuffle [0, 1] (-6)` is `[0, undefined]`,
not a permutation of the input. -/
theorem seededShuffle_negative_seed_not_perm :
    seededShuffle [(0 : Nat), 1] (-6 : Int) = [some 0, none] ∧
    ¬ (seededShuffle [(0 : Nat), 1] (-6 : Int)).Perm ([0, 1].map some) := by
  constructor
  · rfl
  · decide

/-- C6: when the stored order is present and `currentLevel` equals the
requested level, `getNextPrompt` leaves the user row untouched and serves
from the stored order, so a second call without an intervening
`recordCompletion` returns the identical result. -/
theorem getNextPrompt_reuse_idempotent
    (u : User) (level : Nat) (sheet : Nat → String) (ord : List (Option Nat))
    (hord : u.levelScriptOrder = some ord) (hlvl : u.currentLevel = some level) :
    (getNextPrompt u level sheet).1 = u ∧
    (getNextPrompt u level sheet).2 =
      servePrompt (jsOrNat u.scriptsCompletedInLevel 0) level ord sheet ∧
    getNextPrompt ((getNextPrompt u level sheet).1) level sheet = getNextPrompt u level sheet := by
  have h : getNextPrompt u level sheet =
      (u, servePrompt (jsOrNat u.scriptsCompletedInLevel 0) level ord sheet) := by
    unfold getNextPrompt
    rw [hord, hlvl]
    simp
  refine ⟨by rw [h], by rw [h], ?_⟩
  rw [h, h]

/-- C6 witness. -/
theorem getNextPrompt_reuse_idempotent_witness :
    c6User.levelScriptOrder = some [some 51, some 52] ∧ c6User.currentLevel = some 2 ∧
    ((getNextPrompt c6User 2 (fun _ => "x")).1 = c6User ∧
     (getNextPrompt c6User 2 (fun _ => "x")).2 =
       servePrompt (jsOrNat c6User.scriptsCompletedInLevel 0) 2 [some 51, some 52]
         (fun _ => "x") ∧
     getNextPrompt ((getNextPrompt c6User 2 (fun _ => "x")).1) 2 (fun _ => "x") =
       getNextPrompt c6User 2 (fun _ => "x")) :=
  ⟨rfl, rfl,
   getNextPrompt_reuse_idempotent c6User 2 (fun _ => "x") [some 51, some 52] rfl rfl⟩

/-- C7 (amended): the freshly computed and persisted order is a
permutation of exactly the non-blank row indices of the level's
contiguous range `[(level-1)*50 + 1, level*50]` — every such index lies
in the range and is non-blank, and every non-blank index of the range
appears. Blank rows are filtered out, so the order is not in general a
permutation of the full range (see the counterexample). -/
theorem getNextPrompt_fresh_order_perm
    (u : User) (level : Nat) (sheet : Nat → String)
    (hlevel : 1 ≤ level) (hord : u.levelScriptOrder = none)
    (hne : levelScripts level sheet ≠ []) :
    (getNextPrompt u level sheet).1.levelScriptOrder =
      some (seededShuffle (nonBlankIndices level sheet)
        ((generateSeed u.username level : Nat) : Int)) ∧
    (seededShuffle (nonBlankIndices level sheet)
        ((generateSeed u.username level : Nat) : Int)).Perm
      ((nonBlankIndices level sheet).map some) ∧
    (∀ n ∈ nonBlankIndices level sheet,
      levelStartRow level ≤ n ∧ n ≤ level * scriptsPerLevelConst ∧
      jsTrim (sheet n).data ≠ []) ∧
    (∀ n, levelStartRow level ≤ n → n ≤ level * scriptsPerLevelConst →
      jsTrim (sheet n).data ≠ [] → n ∈ nonBlankIndices level sheet) := by
  refine ⟨?_, seededShuffle_perm _ _ (Int.natCast_nonneg _), ?_, ?_⟩
  · unfold getNextPrompt
    rw [hord]
    have hval : (levelValues level sheet).length = 50 := by
      unfold levelValues scriptsPerLevelConst
      simp
    have hne' : (levelScripts level sheet).length ≠ 0 := by
      simpa [List.length_eq_zero] using hne
    simp only [hval]
    rw [if_neg (by omega)]
    simp only [nonBlankIndices]
    rw [if_neg hne']
  · intro n hn
    rw [nonBlankIndices_eq, List.mem_filter, List.mem_range'] at hn
    obtain ⟨⟨i, hi, hni⟩, hblank⟩ := hn
    refine ⟨by omega, ?_, by simpa using hblank⟩
    unfold levelStartRow scriptsPerLevelConst at *
    omega
  · intro n h1 h2 h3
    rw [nonBlankIndices_eq, List.mem_filter, List.mem_range']
    refine ⟨?_, by simpa using h3⟩
    unfold levelStartRow scriptsPerLevelConst at *
    refine ⟨n - ((level - 1) * 50 + 1), by omega, by omega⟩

/-- C7 witness. -/
theorem getNextPrompt_fresh_order_perm_witness :
    (1 : Nat) ≤ 1 ∧ c7User.levelScriptOrder = none ∧ levelScripts 1 c7Sheet ≠ [] ∧
    ((getNextPrompt c7User 1 c7Sheet).1.levelScriptOrder =
       some (seededShuffle (nonBlankIndices 1 c7Sheet)
         ((generateSeed c7User.username 1 : Nat) : Int)) ∧
     (seededShuffle (nonBlankIndices 1 c7Sheet)
         ((generateSeed c7User.username 1 : Nat) : Int)).Perm
       ((nonBlankIndices 1 c7Sheet).map some) ∧
     (∀ n ∈ nonBlankIndices 1 c7Sheet,
       levelStartRow 1 ≤ n ∧ n ≤ 1 * scriptsPerLevelConst ∧ jsTrim (c7Sheet n).data ≠ []) ∧
     (∀ n, levelStartRow 1 ≤ n → n ≤ 1 * scriptsPerLevelConst →
       jsTrim (c7Sheet n).data ≠ [] → n ∈ nonBlankIndices 1 c7Sheet)) :=
  ⟨by decide, rfl, by decide,
   getNextPrompt_fresh_order_perm c7User 1 c7Sheet (by decide) rfl (by decide)⟩

/-- C7 counterexample: with only row 1 non-blank in level 1, the
persisted order is `[1]`; row index 2 belongs to the level range but does
not appear, so the order is not a permutation of the full range. -/
theorem getNextPrompt_order_omits_blank_rows :
    (getNextPrompt c7User 1 c7Sheet).1.levelScriptOrder = some [some 1] ∧
    (2 ∈ List.range' (levelStartRow 1) scriptsPerLevelConst) ∧
    some 2 ∉ [some (1 : Nat)] ∧
    ¬ ((List.range' (levelStartRow 1) scriptsPerLevelConst).map some).Perm
        [some (1 : Nat)] := by
  refine ⟨by decide, by decide, by decide, ?_⟩
  intro h
  have := h.length_eq
  simp [scriptsPerLevelConst] at this

/-- C8: non-empty raw usernames (the handler rejects falsy ones with 400
first) that differ only in case and padding normalize to the same key, so
the second `resolveOrCreateUser` call finds — and does not re-create —
the user inserted by the first. -/
theorem resolveOrCreateUser_caseInsensitive
    (db : List User) (a b sid1 sid2 : String) (newId now1 id2 now2 : Nat)
    (hvar : caseWsVariant a b) (ha : a ≠ "") (hb : b ≠ "")
    (hnew : ∀ u ∈ db, u.username ≠ normalizeUsername a) :
    normalizeUsername a = normalizeUsername b ∧
    (resolveOrCreateUser db (some a) sid1 newId now1).2 =
      RocOutcome.ok
        { userId := newId, username := normalizeUsername a, currentLevel := 1,
          scriptsCompletedInLevel := 0, isNewUser := true } ∧
    (resolveOrCreateUser (resolveOrCreateUser db (some a) sid1 newId now1).1 (some b) sid2 id2
        now2).2 =
      RocOutcome.ok
        { userId := newId, username := normalizeUsername a, currentLevel := 1,
          scriptsCompletedInLevel := 0, isNewUser := false } := by
  have hab : normalizeUsername a = normalizeUsername b := normalizeUsername_eq_of_variant a b hvar
  have hfind : findByUsername db (normalizeUsername a) = none := by
    rw [findByUsername, List.find?_eq_none]
    intro u hu
    simp [hnew u hu]
  have h1 : List.find? (fun u => u.username == normalizeUsername a) db = none := hfind
  have hfind2 :
      findByUsername (db ++
        [{ id := newId, username := normalizeUsername a, lastScriptId := some 0,
           currentLevel := some 1, scriptsCompletedInLevel := some 0, levelScriptOrder := none,
           sessionId := some sid1, lastActivity := now1, version := some 0 }])
        (normalizeUsername b) =
      some { id := newId, username := normalizeUsername a, lastScriptId := some 0,
             currentLevel := some 1, scriptsCompletedInLevel := some 0, levelScriptOrder := none,
             sessionId := some sid1, lastActivity := now1, version := some 0 } := by
    rw [findByUsername, ← hab, List.find?_append, h1]
    simp
  refine ⟨hab, ?_, ?_⟩ <;>
    simp [resolveOrCreateUser, ha, hb, hfind, hfind2, jsOrNat]

/-- C8 witness. -/
theorem resolveOrCreateUser_caseInsensitive_witness :
    caseWsVariant " Alice" "alice " ∧ (" Alice" ≠ "") ∧ ("alice " ≠ "") ∧
    (∀ u ∈ ([] : List User), u.username ≠ normalizeUsername " Alice") ∧
    (normalizeUsername " Alice" = normalizeUsername "alice " ∧
     (resolveOrCreateUser [] (some " Alice") "s1" 5 1).2 =
       RocOutcome.ok
         { userId := 5, username := normalizeUsername " Alice", currentLevel := 1,
           scriptsCompletedInLevel := 0, isNewUser := true } ∧
     (resolveOrCreateUser (resolveOrCreateUser [] (some " Alice") "s1" 5 1).1 (some "alice ")
         "s2" 6 2).2 =
       RocOutcome.ok
         { userId := 5, username := normalizeUsername " Alice", currentLevel := 1,
           scriptsCompletedInLevel := 0, isNewUser := false }) :=
  have hvar : caseWsVariant " Alice" "alice " :=
    ⟨[' '], [], [], [' '], "Alice".data, "alice".data,
     by unfold wsOnly; decide, by unfold wsOnly; decide, by unfold wsOnly; decide,
     by unfold wsOnly; decide, by unfold eqUpToCase; decide, by decide, by decide⟩
  ⟨hvar, by decide, by decide, by simp,
   resolveOrCreateUser_caseInsensitive [] " Alice" "alice " "s1" "s2" 5 1 6 2 hvar (by decide)
     (by decide) (by simp)⟩

/-- C9: two completions that differ only in the submitted external
prompt index produce the same response and the same post-state except
for the deprecated `lastScriptId` mirror field. -/
theorem recordCompletion_ignores_submitted_index
    (u latest : User) (r1 r2 : Int) (sid : Option String) (now k : Nat)
    (hk : u.scriptsCompletedInLevel = some k)
    (hsess : sessionCheckFails u.sessionId sid = false) :
    (recordCompletion u u latest ⟨some r1, sid⟩ now).2 =
      (recordCompletion u u latest ⟨some r2, sid⟩ now).2 ∧
    (recordCompletion u u latest ⟨some r1, sid⟩ now).1 =
      { (recordCompletion u u latest ⟨some r2, sid⟩ now).1 with lastScriptId := some r1 } := by
  unfold recordCompletion
  simp only [hsess, Bool.false_eq_true, if_false, hk, jsOrNat_some_zero, beq_self_eq_true,
    if_true]
  constructor <;> simp

/-- C9 witness. -/
theorem recordCompletion_ignores_submitted_index_witness :
    c3CurrentUser.scriptsCompletedInLevel = some 0 ∧
    sessionCheckFails c3CurrentUser.sessionId (some "sess1") = false ∧
    ((recordCompletion c3CurrentUser c3CurrentUser c3CurrentUser ⟨some 9, some "sess1"⟩ 5).2 =
       (recordCompletion c3CurrentUser c3CurrentUser c3CurrentUser ⟨some 100, some "sess1"⟩ 5).2 ∧
     (recordCompletion c3CurrentUser c3CurrentUser c3CurrentUser ⟨some 9, some "sess1"⟩ 5).1 =
       { (recordCompletion c3CurrentUser c3CurrentUser c3CurrentUser ⟨some 100, some "sess1"⟩ 5).1 with
         lastScriptId := some 9 }) :=
  ⟨rfl, by decide,
   recordCompletion_ignores_submitted_index c3CurrentUser c3CurrentUser 9 100 (some "sess1") 5 0
     rfl (by decide)⟩

/-- C10: a request with an absent or empty `sessionId` skips the session
check entirely: progress advances whatever `sessionId` is stored, and the
stored `sessionId` is written back unchanged. -/
theorem recordCompletion_falsy_session_skips_check
    (u latest : User) (rowIx : Int) (sid : Option String) (now k : Nat)
    (hsid : sid = none ∨ sid = some "")
    (hk : u.scriptsCompletedInLevel = some k) :
    let spl := match u.levelScriptOrder with
      | some ord => if 0 < ord.length then ord.length else 50
      | none => 50
    let lc := decide (spl ≤ k + 1)
    (recordCompletion u u latest ⟨some rowIx, sid⟩ now).2 =
      RcResult.ok u.id
        (if lc then jsOrNat u.currentLevel 1 + 1 else jsOrNat u.currentLevel 1)
        (if lc then 0 else k + 1) lc (jsOrNat u.version 0 + 1) ∧
    (recordCompletion u u latest ⟨some rowIx, sid⟩ now).1.sessionId = u.sessionId ∧
    (recordCompletion u u latest ⟨some rowIx, sid⟩ now).1.scriptsCompletedInLevel =
      some (if lc then 0 else k + 1) := by
  intro spl lc
  have hfail : sessionCheckFails u.sessionId sid = false := by
    rcases hsid with h | h <;> simp [h, sessionCheckFails, strTruthy]
  have hor : jsOrStr sid u.sessionId = u.sessionId := by
    rcases hsid with h | h <;> simp [h, jsOrStr, strTruthy]
  unfold recordCompletion
  simp only [hfail, Bool.false_eq_true, if_false, hk, jsOrNat_some_zero, beq_self_eq_true,
    if_true, hor]
  refine ⟨?_, ?_, ?_⟩ <;> simp [lc, spl]

/-- C10 witness. -/
theorem recordCompletion_falsy_session_skips_check_witness :
    ((none : Option String) = none ∨ (none : Option String) = some "") ∧
    c3CurrentUser.scriptsCompletedInLevel = some 0 ∧
    ((recordCompletion c3CurrentUser c3CurrentUser c3CurrentUser ⟨some 9, none⟩ 5).2 =
       RcResult.ok c3CurrentUser.id 1 1 false 5 ∧
     (recordCompletion c3CurrentUser c3CurrentUser c3CurrentUser ⟨some 9, none⟩ 5).1.sessionId =
       c3CurrentUser.sessionId ∧
     (recordCompletion c3CurrentUser c3CurrentUser c3CurrentUser ⟨some 9, none⟩ 5).1.scriptsCompletedInLevel =
       some 1) :=
  ⟨Or.inl rfl, rfl, by
    have h := recordCompletion_falsy_session_skips_check c3CurrentUser c3CurrentUser 9 none 5 0
      (Or.inl rfl) rfl
    exact h⟩
